import Mathlib

/-!
Verification of the SMCBridge core (src/SMCBridge/SMCBridge.c): the key
codec (`strtoul_b` / `ultoa_b`), the two-phase controller transport
(`SMCReadKey2` over the structured-call primitive), the value decoder
(`convertValue`), and the session facade (`SMCReadKey`).

Modelling conventions:
* `uint8_t` is `Fin 256`; `uint32_t` values are `Nat` (reduced mod 2^32
  where the C arithmetic wraps); `kern_return_t` is `Int`; C `double`
  results are `ℚ` (every value produced by the decoder is a dyadic
  rational, exactly representable in a C double, so `ℚ` is lossless).
* A C byte buffer is the list of bytes the pointed-to allocation holds;
  reading past the end of that list is an out-of-range access, which the
  embedding signals with `Option.none`.
* The kernel's structured-call primitive (`IOConnectCallStructMethod`)
  is an external collaborator, modelled as an oracle function from
  (connection, method index, input record) to (status, output record).
  `SMCReadKey2` additionally returns the list of structured calls it
  issued, in order, so that protocol-linkage properties can be stated.
-/

namespace SMCBridge

/-- `#define KERNEL_INDEX_SMC 2` -/
def KERNEL_INDEX_SMC : Nat := 2

/-- `#define SMC_CMD_READ_BYTES 5` (stored in the 8-bit `data8` field). -/
def SMC_CMD_READ_BYTES : Fin 256 := 5

/-- `#define SMC_CMD_READ_KEYINFO 9` (stored in the 8-bit `data8` field). -/
def SMC_CMD_READ_KEYINFO : Fin 256 := 9

/-- `kIOReturnSuccess` (IOKit), numerically zero. -/
def kIOReturnSuccess : Int := 0

/-- Conversion of a wrapped 32-bit pattern to the value of a C signed
`int` holding those bits (two's complement).  The C `ui32` branch of
`convertValue` computes `(bytes[0] << 24) | ...` in `int` arithmetic and
casts that `int` to `double`; for `bytes[0] ≥ 0x80` the shift sets the
sign bit (signed-overflow territory in ISO C; every supported compiler
yields the two's-complement pattern), so the `int` is negative. -/
def toInt32 (n : Nat) : Int :=
  if n % 2 ^ 32 < 2 ^ 31 then (n % 2 ^ 32 : Int) else (n % 2 ^ 32 : Int) - 2 ^ 32

/-- Conversion of an `int` value in `[0, 2^16)` to the `int16_t` obtained
by C's integer conversion (two's complement wrap-around). -/
def toInt16 (n : Nat) : Int :=
  if n % 2 ^ 16 < 2 ^ 15 then (n % 2 ^ 16 : Int) else (n % 2 ^ 16 : Int) - 2 ^ 16

/-- The rational value of the IEEE-754 binary32 number with bit pattern
`bits` (the `flt ` branch reinterprets 4 assembled bytes this way).
Infinities and NaNs (exponent 255) have no rational value; they are
mapped to 0 here, which no claim depends on. -/
def fltToRat (bits : Nat) : ℚ :=
  let sign : ℚ := if bits / 2 ^ 31 % 2 = 1 then -1 else 1
  let expo : Nat := bits / 2 ^ 23 % 2 ^ 8
  let mant : Nat := bits % 2 ^ 23
  if expo = 0 then sign * (mant : ℚ) * (2 : ℚ) ^ (-(149 : ℤ))
  else if expo = 255 then 0
  else sign * ((2 ^ 23 + mant : Nat) : ℚ) * (2 : ℚ) ^ ((expo : ℤ) - 150)

/-- `static uint32_t strtoul_b(const char *str, int size, int base)`.
The loop reads `str[0] .. str[size-1]` unconditionally (it does not stop
at a NUL), so the access is in range only when the pointed-to buffer
holds at least `size` bytes; otherwise the read is out of range (C
undefined behaviour), signalled by `none`.  `total` is a `uint32_t`, so
each `+=` wraps mod `2^32`.  The two branches of `if (base == 16)` in
the source are identical; both are reproduced here. -/
def strtoul_b (str : List (Fin 256)) (size : Nat) (base : Int) : Option Nat :=
  if size ≤ str.length then
    some ((List.range size).foldl
      (fun total i =>
        if base = 16 then
          (total + ((str.getD i 0 : Fin 256) : Nat) <<< ((size - 1 - i) * 8)) % 2 ^ 32
        else
          (total + ((str.getD i 0 : Fin 256) : Nat) <<< ((size - 1 - i) * 8)) % 2 ^ 32)
      0)
  else none

/-- `static void ultoa_b(uint32_t val, char *str, int size)`: writes the
`size` bytes `(val >> ((size-1-i)*8)) & 0xFF`, most significant first.
Modelled as the list of bytes written. -/
def ultoa_b (val : Nat) (size : Nat) : List (Fin 256) :=
  (List.range size).map (fun i => ⟨val >>> ((size - 1 - i) * 8) % 256, Nat.mod_lt _ (by norm_num)⟩)

/-- Effect of `strncpy(val->key, key, 4)` on the zeroed `char key[5]`
field: the first `min 4 (strlen key)` bytes of the source, padded with
NULs to the 5-byte field. -/
def strncpy5 (src : List (Fin 256)) : List (Fin 256) :=
  let copied := (src.takeWhile (fun b => b ≠ 0)).take 4
  copied ++ List.replicate (5 - copied.length) 0

/-- The nested `keyInfo` sub-record of `SMCParamStruct`:
`{ uint32_t dataSize; uint32_t dataType; uint8_t dataAttributes; }`. -/
structure SMCKeyInfo where
  dataSize : Nat
  dataType : Nat
  dataAttributes : Fin 256
deriving DecidableEq

/-- The fixed-layout wire record `SMCParamStruct` exchanged with the
kernel.  `bytes` is the `uint8_t bytes[32]` buffer (always 32 entries
for records built by this code). -/
structure SMCParamStruct where
  key : Nat
  keyInfo : SMCKeyInfo
  result : Fin 256
  status : Fin 256
  data8 : Fin 256
  data32 : Nat
  bytes : List (Fin 256)
deriving DecidableEq

/-- An all-zero `SMCParamStruct`, as produced by
`memset(&s, 0, sizeof(SMCParamStruct))`. -/
def zeroParam : SMCParamStruct :=
  { key := 0
    keyInfo := { dataSize := 0, dataType := 0, dataAttributes := 0 }
    result := 0
    status := 0
    data8 := 0
    data32 := 0
    bytes := List.replicate 32 0 }

/-- `SMCVal_t`: textual key (`char key[5]`), declared size, type tag
(the 4 tag bytes of `char dataType[5]`; its trailing NUL is implicit,
so `strcmp(dataType, t) == 0` for a 4-character literal `t` is exactly
equality of these 4 bytes), payload bytes (`uint8_t bytes[32]`). -/
structure SMCVal where
  key : List (Fin 256)
  dataSize : Nat
  dataType : List (Fin 256)
  bytes : List (Fin 256)
deriving DecidableEq

/-- The byte `val->bytes[i]` as the `int` it is promoted to in C
expressions.  Indices used by the code are `< 32`, inside the array. -/
def byteAt (val : SMCVal) (i : Nat) : Nat :=
  ((val.bytes.getD i 0 : Fin 256) : Nat)

/-- Tag bytes of `"sp78"`. -/
def tag_sp78 : List (Fin 256) := [115, 112, 55, 56]

/-- Tag bytes of `"fpe2"`. -/
def tag_fpe2 : List (Fin 256) := [102, 112, 101, 50]

/-- Tag bytes of `"flt "`. -/
def tag_flt : List (Fin 256) := [102, 108, 116, 32]

/-- Tag bytes of `"ui8 "`. -/
def tag_ui8 : List (Fin 256) := [117, 105, 56, 32]

/-- Tag bytes of `"ui16"`. -/
def tag_ui16 : List (Fin 256) := [117, 105, 49, 54]

/-- Tag bytes of `"ui32"`. -/
def tag_ui32 : List (Fin 256) := [117, 105, 51, 50]

/-- `static double convertValue(SMCVal_t *val)`, branch for branch.
The multi-byte assemblies use the C expressions' shift/or form.  In the
`ui32` branch the assembled expression has C type `int` and is cast to
`double` as that signed value (`toInt32`); in the `flt ` branch it is
assigned to a `uint32_t` (value mod `2^32`) and reinterpreted as an
IEEE-754 float. -/
def convertValue (val : SMCVal) : ℚ :=
  if val.dataSize = 0 then 0
  else if val.dataType = tag_sp78 ∧ val.dataSize = 2 then
    (toInt16 (byteAt val 0 <<< 8 ||| byteAt val 1) : ℚ) / 256
  else if val.dataType = tag_fpe2 ∧ val.dataSize = 2 then
    ((byteAt val 0 <<< 8 ||| byteAt val 1 : Nat) : ℚ) / 4
  else if val.dataType = tag_flt ∧ val.dataSize = 4 then
    fltToRat ((byteAt val 0 <<< 24 ||| byteAt val 1 <<< 16 ||| byteAt val 2 <<< 8 ||| byteAt val 3) % 2 ^ 32)
  else if val.dataType = tag_ui8 then
    ((byteAt val 0 : Nat) : ℚ)
  else if val.dataType = tag_ui16 ∧ val.dataSize = 2 then
    ((byteAt val 0 <<< 8 ||| byteAt val 1 : Nat) : ℚ)
  else if val.dataType = tag_ui32 ∧ val.dataSize = 4 then
    (toInt32 (byteAt val 0 <<< 24 ||| byteAt val 1 <<< 16 ||| byteAt val 2 <<< 8 ||| byteAt val 3) : ℚ)
  else 0

/-- Convenience constructor for an `SMCVal` as it reaches
`convertValue`: payload padded to the 32-byte array. -/
def mkVal (tag : List (Fin 256)) (size : Nat) (payload : List (Fin 256)) : SMCVal :=
  { key := List.replicate 5 0
    dataSize := size
    dataType := tag
    bytes := payload ++ List.replicate (32 - payload.length) 0 }

/-- The external structured-call primitive
(`IOConnectCallStructMethod`): an oracle mapping (connection, method
index, input record) to (status, output record). -/
def Kernel : Type := Nat → Nat → SMCParamStruct → Int × SMCParamStruct

/-- `static kern_return_t SMCCall(conn, index, inputStruct, outputStruct)`:
a single structured exchange with the kernel oracle. -/
def SMCCall (kernel : Kernel) (conn : Nat) (index : Nat) (input : SMCParamStruct) :
    Int × SMCParamStruct :=
  kernel conn index input

/-- The metadata-phase request built by `SMCReadKey2`: all fields zero
except the encoded key and `data8 = SMC_CMD_READ_KEYINFO`. -/
def metaRequest (k : Nat) : SMCParamStruct :=
  { zeroParam with key := k, data8 := SMC_CMD_READ_KEYINFO }

/-- The data-phase request: the C code mutates the same `inputStruct` in
place, setting `keyInfo.dataSize` to the size obtained from the metadata
phase and `data8 = SMC_CMD_READ_BYTES`; every other field keeps its
metadata-phase content (key, and zeros elsewhere). -/
def dataRequest (k : Nat) (size : Nat) : SMCParamStruct :=
  { metaRequest k with
    keyInfo := { (metaRequest k).keyInfo with dataSize := size }
    data8 := SMC_CMD_READ_BYTES }

/-- `*val` after `memset(val, 0, ...)` and `strncpy(val->key, key, 4)`,
before any phase completes. -/
def valAfterKey (key : List (Fin 256)) : SMCVal :=
  { key := strncpy5 key
    dataSize := 0
    dataType := List.replicate 4 0
    bytes := List.replicate 32 0 }

/-- `*val` after the metadata phase stored the declared size and the
decoded type tag. -/
def valAfterMeta (key : List (Fin 256)) (info : SMCKeyInfo) : SMCVal :=
  { valAfterKey key with
    dataSize := info.dataSize
    dataType := ultoa_b info.dataType 4 }

/-- `static kern_return_t SMCReadKey2(io_connect_t conn, const char *key,
SMCVal_t *val)`.  Returns the status, the final `*val`, and the list of
structured calls issued (connection, method index, input record), in
order.  `none` only when `strtoul_b(key, 4, 16)` reads out of range. -/
def SMCReadKey2 (kernel : Kernel) (conn : Nat) (key : List (Fin 256)) :
    Option (Int × SMCVal × List (Nat × Nat × SMCParamStruct)) :=
  match strtoul_b key 4 16 with
  | none => none
  | some k =>
    let input1 := metaRequest k
    let res1 := SMCCall kernel conn KERNEL_INDEX_SMC input1
    if res1.1 ≠ kIOReturnSuccess then
      some (res1.1, valAfterKey key, [(conn, KERNEL_INDEX_SMC, input1)])
    else
      let val2 := valAfterMeta key res1.2.keyInfo
      let input2 := dataRequest k val2.dataSize
      let res2 := SMCCall kernel conn KERNEL_INDEX_SMC input2
      if res2.1 ≠ kIOReturnSuccess then
        some (res2.1, val2,
              [(conn, KERNEL_INDEX_SMC, input1), (conn, KERNEL_INDEX_SMC, input2)])
      else
        some (kIOReturnSuccess, { val2 with bytes := res2.2.bytes },
              [(conn, KERNEL_INDEX_SMC, input1), (conn, KERNEL_INDEX_SMC, input2)])

/-- `kern_return_t SMCReadKey(io_connect_t conn, const char *key,
double *value)`.  `value` is the caller's `*value` before the call; the
result pairs the returned status with `*value` after the call (written
only on success). -/
def SMCReadKey (kernel : Kernel) (conn : Nat) (key : List (Fin 256)) (value : ℚ) :
    Option (Int × ℚ) :=
  match SMCReadKey2 kernel conn key with
  | none => none
  | some (result, val, _) =>
    some (result, if result = kIOReturnSuccess then convertValue val else value)

/-- Whether `(val->dataType, val->dataSize)` matches one of the decoder's
recognized (tag, size) rows, i.e. satisfies the guard of one of the
`strcmp`-and-size branches of `convertValue`. -/
def matchesTableRow (val : SMCVal) : Bool :=
  (val.dataType = tag_sp78 ∧ val.dataSize = 2 : Bool)
  || (val.dataType = tag_fpe2 ∧ val.dataSize = 2 : Bool)
  || (val.dataType = tag_flt ∧ val.dataSize = 4 : Bool)
  || (val.dataType = tag_ui8 : Bool)
  || (val.dataType = tag_ui16 ∧ val.dataSize = 2 : Bool)
  || (val.dataType = tag_ui32 ∧ val.dataSize = 4 : Bool)

/-- The spec's reading of a signed 16-bit big-endian two's-complement
integer from two bytes (most significant first). -/
def signed16BE (b0 b1 : Fin 256) : Int :=
  if (b0 : Nat) < 128 then (b0 : Int) * 256 + (b1 : Int)
  else (b0 : Int) * 256 + (b1 : Int) - 65536

/-- The buffer of the C string literal `"TC0P"`: four ASCII characters
and the NUL terminator. -/
def keyTC0P : List (Fin 256) := [84, 67, 48, 80, 0]

/-- A sample kernel oracle that answers the metadata phase with type
`fpe2`, size 2, and the data phase with payload bytes `[0x00, 0x04]`
(which decodes to 1.0). -/
def okKernel : Kernel := fun _ _ input =>
  if input.data8 = SMC_CMD_READ_KEYINFO then
    (0, { zeroParam with
          keyInfo := { dataSize := 2
                       dataType := 102 * 2 ^ 24 + 112 * 2 ^ 16 + 101 * 2 ^ 8 + 50
                       dataAttributes := 0 } })
  else
    (0, { zeroParam with bytes := 0 :: 4 :: List.replicate 30 0 })

/-- A sample kernel oracle that fails every call with status 714. -/
def failKernel : Kernel := fun _ _ _ => (714, zeroParam)

/-- A sample kernel oracle that succeeds at the metadata phase and fails
the data phase with status -318. -/
def failDataKernel : Kernel := fun _ _ input =>
  if input.data8 = SMC_CMD_READ_KEYINFO then
    (0, { zeroParam with
          keyInfo := { dataSize := 4, dataType := 0, dataAttributes := 0 } })
  else
    (-318, zeroParam)

/-! ### Arithmetic helper lemmas -/

/-- Bitwise or is addition when the operands occupy disjoint bit ranges:
`a` has zero low `n` bits and `b` fits in `n` bits. -/
theorem lor_eq_add (n : ℕ) : ∀ a b : ℕ, a % 2 ^ n = 0 → b < 2 ^ n → a ||| b = a + b := by
  induction n with
  | zero =>
    intro a b _ hb
    have hb0 : b = 0 := by omega
    simp [hb0]
  | succ n ih =>
    intro a b ha hb
    obtain ⟨k, hk⟩ : 2 ^ (n + 1) ∣ a := Nat.dvd_of_mod_eq_zero ha
    have ha2 : a % 2 = 0 := by
      have h2 : (2 : ℕ) ∣ a := dvd_trans (dvd_pow_self 2 (Nat.succ_ne_zero n)) ⟨k, hk⟩
      omega
    have haq : a / 2 % 2 ^ n = 0 := by
      have haa : a = 2 * (2 ^ n * k) := by rw [hk]; ring
      rw [haa, Nat.mul_div_cancel_left _ (by norm_num : 0 < 2), Nat.mul_mod_right]
    have hbq : b / 2 < 2 ^ n := by
      rw [Nat.div_lt_iff_lt_mul (by norm_num : 0 < 2)]
      calc b < 2 ^ (n + 1) := hb
        _ = 2 ^ n * 2 := by ring
    have hdiv : a / 2 ||| b / 2 = a / 2 + b / 2 := ih _ _ haq hbq
    have hmod : (a ||| b) % 2 = b % 2 := by
      rcases Nat.mod_two_eq_zero_or_one b with h | h
      · rcases Nat.mod_two_eq_zero_or_one (a ||| b) with h2 | h2
        · omega
        · rcases Nat.or_mod_two_eq_one.mp h2 with h3 | h3 <;> omega
      · have h2 := (@Nat.or_mod_two_eq_one a b).mpr (Or.inr h)
        omega
    have d1 := Nat.div_add_mod (a ||| b) 2
    rw [Nat.or_div_two, hdiv] at d1
    have d2 := Nat.div_add_mod a 2
    have d3 := Nat.div_add_mod b 2
    omega

/-- `a <<< k ||| b` is the arithmetic combination when `b` fits in `k` bits. -/
theorem shiftLeft_lor_eq_add (a b k : ℕ) (hb : b < 2 ^ k) : a <<< k ||| b = a * 2 ^ k + b := by
  rw [Nat.shiftLeft_eq]
  exact lor_eq_add k (a * 2 ^ k) b (Nat.mul_mod_left _ _) hb

/-- The two-byte big-endian assembly `(b0 << 8) | b1` as arithmetic. -/
theorem assemble2 (b0 b1 : Fin 256) :
    (b0 : Nat) <<< 8 ||| (b1 : Nat) = (b0 : Nat) * 256 + (b1 : Nat) := by
  have h1 := b1.isLt
  have h := shiftLeft_lor_eq_add (b0 : Nat) (b1 : Nat) 8 (by norm_num <;> omega)
  simpa using h

/-- The four-byte big-endian assembly
`(b0 << 24) | (b1 << 16) | (b2 << 8) | b3` as arithmetic. -/
theorem assemble4 (b0 b1 b2 b3 : Fin 256) :
    (b0 : Nat) <<< 24 ||| (b1 : Nat) <<< 16 ||| (b2 : Nat) <<< 8 ||| (b3 : Nat)
      = (b0 : Nat) * 2 ^ 24 + (b1 : Nat) * 2 ^ 16 + (b2 : Nat) * 2 ^ 8 + (b3 : Nat) := by
  have h0 := b0.isLt
  have h1 := b1.isLt
  have h2 := b2.isLt
  have h3 := b3.isLt
  rw [Nat.shiftLeft_eq, Nat.shiftLeft_eq, Nat.shiftLeft_eq,
    lor_eq_add 24 ((b0 : Nat) * 2 ^ 24) ((b1 : Nat) * 2 ^ 16)
      (by norm_num <;> omega) (by norm_num <;> omega),
    lor_eq_add 16 ((b0 : Nat) * 2 ^ 24 + (b1 : Nat) * 2 ^ 16) ((b2 : Nat) * 2 ^ 8)
      (by norm_num <;> omega) (by norm_num <;> omega),
    lor_eq_add 8 ((b0 : Nat) * 2 ^ 24 + (b1 : Nat) * 2 ^ 16 + (b2 : Nat) * 2 ^ 8) (b3 : Nat)
      (by norm_num <;> omega) (by omega)]

/-- `strtoul_b` with declared size 4 on a buffer of at least 4 bytes is
the big-endian packing of the first 4 bytes (no wrap occurs: the four
disjoint byte contributions sum below `2^32`). -/
theorem strtoul_b_four (b0 b1 b2 b3 : Fin 256) (rest : List (Fin 256)) (base : Int) :
    strtoul_b (b0 :: b1 :: b2 :: b3 :: rest) 4 base =
      some ((b0 : Nat) * 2 ^ 24 + (b1 : Nat) * 2 ^ 16 + (b2 : Nat) * 2 ^ 8 + (b3 : Nat)) := by
  have h0 := b0.isLt
  have h1 := b1.isLt
  have h2 := b2.isLt
  have h3 := b3.isLt
  unfold strtoul_b
  rw [if_pos (by simp)]
  rw [show List.range 4 = [0, 1, 2, 3] from rfl]
  simp only [List.foldl, List.getD, List.getElem?_cons_zero, List.getElem?_cons_succ,
    Option.getD_some]
  split_ifs <;>
  · rw [Nat.shiftLeft_eq, Nat.shiftLeft_eq, Nat.shiftLeft_eq, Nat.shiftLeft_eq]
    norm_num
    omega

/-- `ultoa_b` with size 4 recovers the four bytes of a big-endian packing. -/
theorem ultoa_b_four (b0 b1 b2 b3 : Fin 256) :
    ultoa_b ((b0 : Nat) * 2 ^ 24 + (b1 : Nat) * 2 ^ 16 + (b2 : Nat) * 2 ^ 8 + (b3 : Nat)) 4
      = [b0, b1, b2, b3] := by
  have h0 := b0.isLt
  have h1 := b1.isLt
  have h2 := b2.isLt
  have h3 := b3.isLt
  unfold ultoa_b
  rw [show List.range 4 = [0, 1, 2, 3] from rfl]
  simp only [List.map]
  refine List.ext_getElem (by simp) ?_
  intro i hi1 hi2
  simp only [List.length_cons, List.length_nil] at hi2
  interval_cases i <;>
  · simp only [List.getElem_cons_zero, List.getElem_cons_succ]
    rw [Fin.ext_iff]
    simp only [Nat.shiftRight_eq_div_pow]
    norm_num
    omega

/-- The C cast of `(b0 << 8) | b1` to `int16_t` agrees with the spec's
signed 16-bit big-endian two's-complement reading. -/
theorem toInt16_eq_signed16BE (b0 b1 : Fin 256) :
    toInt16 ((b0 : Nat) <<< 8 ||| (b1 : Nat)) = signed16BE b0 b1 := by
  have hb0 := b0.isLt
  have hb1 := b1.isLt
  rw [assemble2]
  simp only [toInt16, signed16BE]
  norm_num
  split_ifs <;> omega

/-- `convertValue` on a `ui8 `-tagged value of nonzero declared size is
the first payload byte. -/
theorem convertValue_ui8_eq (val : SMCVal) (ht : val.dataType = tag_ui8)
    (hs : val.dataSize ≠ 0) : convertValue val = ((byteAt val 0 : Nat) : ℚ) := by
  have h1 : ¬(val.dataType = tag_sp78 ∧ val.dataSize = 2) := by
    rw [ht]; rintro ⟨h, -⟩; exact absurd h (by decide)
  have h2 : ¬(val.dataType = tag_fpe2 ∧ val.dataSize = 2) := by
    rw [ht]; rintro ⟨h, -⟩; exact absurd h (by decide)
  have h3 : ¬(val.dataType = tag_flt ∧ val.dataSize = 4) := by
    rw [ht]; rintro ⟨h, -⟩; exact absurd h (by decide)
  rw [convertValue, if_neg hs, if_neg h1, if_neg h2, if_neg h3, if_pos ht]

/-! ### Claim theorems: value decoder and key codec -/

/-- Claim C1: the spec states that a `ui32`-tagged, size-4 payload
decodes to the first 4 bytes as an unsigned 32-bit big-endian integer,
non-negative for every byte pattern.  The code does decode
`[0x00,0x00,0x01,0x00]` to 256, but assembles the bytes in C `int`
arithmetic and casts that signed `int` to `double`, so any pattern with
the top bit of `bytes[0]` set comes out negative: `[0xFF,0xFF,0xFF,0xFF]`
decodes to -1, not 4294967295, contradicting the non-negativity the spec
states and the code's own `unsigned integers` comment. -/
theorem c1_ui32_decode :
    convertValue (mkVal tag_ui32 4 [0, 0, 1, 0]) = 256
    ∧ convertValue (mkVal tag_ui32 4 [255, 255, 255, 255]) = -1
    ∧ convertValue (mkVal tag_ui32 4 [255, 255, 255, 255]) < 0 :=
  ⟨by decide, by decide, by decide⟩

/-- `convertValue` on an `sp78`-tagged value of declared size 2 is the
signed 16-bit big-endian reading of the first two payload bytes over
256. -/
theorem convertValue_sp78_eq (val : SMCVal) (ht : val.dataType = tag_sp78)
    (hs : val.dataSize = 2) :
    convertValue val = (signed16BE (val.bytes.getD 0 0) (val.bytes.getD 1 0) : ℚ) / 256 := by
  have hs0 : val.dataSize ≠ 0 := by rw [hs]; norm_num
  rw [convertValue, if_neg hs0, if_pos ⟨ht, hs⟩]
  show (toInt16 (((val.bytes.getD 0 0 : Fin 256) : Nat) <<< 8 ||| ((val.bytes.getD 1 0 : Fin 256) : Nat)) : ℚ) / 256 = _
  rw [toInt16_eq_signed16BE]

/-- Claim C2 (witness `c2_sp78_witness`): an `sp78`-tagged payload of
declared size 2 decodes to the first two payload bytes read as a signed
16-bit big-endian two's-complement integer divided by 256;
`[0x01,0x00]` gives 1 and `[0xFF,0x00]` gives -1. -/
theorem c2_sp78_decode (val : SMCVal) (ht : val.dataType = tag_sp78)
    (hs : val.dataSize = 2) :
    convertValue val = (signed16BE (val.bytes.getD 0 0) (val.bytes.getD 1 0) : ℚ) / 256
    ∧ convertValue (mkVal tag_sp78 2 [1, 0]) = 1
    ∧ convertValue (mkVal tag_sp78 2 [255, 0]) = -1 := by
  refine ⟨convertValue_sp78_eq val ht hs, ?_, ?_⟩
  · rw [convertValue_sp78_eq (mkVal tag_sp78 2 [1, 0]) rfl rfl,
      show signed16BE ((mkVal tag_sp78 2 [1, 0]).bytes.getD 0 0)
          ((mkVal tag_sp78 2 [1, 0]).bytes.getD 1 0) = 256 from by decide]
    norm_num
  · rw [convertValue_sp78_eq (mkVal tag_sp78 2 [255, 0]) rfl rfl,
      show signed16BE ((mkVal tag_sp78 2 [255, 0]).bytes.getD 0 0)
          ((mkVal tag_sp78 2 [255, 0]).bytes.getD 1 0) = -256 from by decide]
    norm_num

/-- Witness for C2 at tag `sp78`, size 2, payload `[0x01, 0x00]`. -/
theorem c2_sp78_witness :
    convertValue (mkVal tag_sp78 2 [1, 0])
      = (signed16BE ((mkVal tag_sp78 2 [1, 0]).bytes.getD 0 0)
          ((mkVal tag_sp78 2 [1, 0]).bytes.getD 1 0) : ℚ) / 256
    ∧ convertValue (mkVal tag_sp78 2 [1, 0]) = 1
    ∧ convertValue (mkVal tag_sp78 2 [255, 0]) = -1 :=
  c2_sp78_decode (mkVal tag_sp78 2 [1, 0]) rfl rfl

/-- Claim C3 (witness `c3_roundtrip_witness`): decoding the 32-bit
encoding of any 4-ASCII-character key recovers the key:
`ultoa_b (strtoul_b k 4 16) 4 = k`. -/
theorem c3_roundtrip (b0 b1 b2 b3 : Fin 256)
    (h0 : 0 < (b0 : Nat) ∧ (b0 : Nat) < 128) (h1 : 0 < (b1 : Nat) ∧ (b1 : Nat) < 128)
    (h2 : 0 < (b2 : Nat) ∧ (b2 : Nat) < 128) (h3 : 0 < (b3 : Nat) ∧ (b3 : Nat) < 128) :
    ∃ v, strtoul_b [b0, b1, b2, b3, 0] 4 16 = some v ∧ ultoa_b v 4 = [b0, b1, b2, b3] :=
  ⟨_, strtoul_b_four b0 b1 b2 b3 [0] 16, ultoa_b_four b0 b1 b2 b3⟩

/-- Witness for C3 at the key `"TC0P"`. -/
theorem c3_roundtrip_witness :
    ∃ v, strtoul_b keyTC0P 4 16 = some v ∧ ultoa_b v 4 = [84, 67, 48, 80] :=
  c3_roundtrip 84 67 48 80 (by decide) (by decide) (by decide) (by decide)

/-- Claim C7 (witness `c7_fallback_witness`): a declared size of 0 makes
the decoder return 0 before any tag is examined (so even `ui8 ` with
size 0 gives 0), and any (tag, size) pair matching none of the table
rows — unknown tags such as `"xyz "` included — also returns 0; the
decoder is total, never an error. -/
theorem c7_fallback (val : SMCVal) :
    (val.dataSize = 0 → convertValue val = 0)
    ∧ (val.dataSize ≠ 0 → matchesTableRow val = false → convertValue val = 0)
    ∧ convertValue (mkVal tag_ui8 0 [42]) = 0
    ∧ convertValue (mkVal [120, 121, 122, 32] 2 [1, 2]) = 0 := by
  refine ⟨?_, ?_, by decide, by decide⟩
  · intro h
    rw [convertValue, if_pos h]
  · intro hs hm
    simp only [matchesTableRow, Bool.or_eq_false_iff, decide_eq_false_iff_not] at hm
    obtain ⟨⟨⟨⟨⟨m1, m2⟩, m3⟩, m4⟩, m5⟩, m6⟩ := hm
    rw [convertValue, if_neg hs, if_neg m1, if_neg m2, if_neg m3, if_neg m4, if_neg m5,
      if_neg m6]

/-- Witness for C7: `ui16` with mismatched declared size 3 falls through
to 0. -/
theorem c7_fallback_witness : convertValue (mkVal tag_ui16 3 [9, 9]) = 0 :=
  (c7_fallback (mkVal tag_ui16 3 [9, 9])).2.1 (by decide) (by decide)

/-- Claim C8 (witness `c8_packing_witness`): `strtoul_b` packs the four
key characters most-significant-byte-first — character 0 occupies the
top 8 bits of the result and character 3 the bottom 8 — and
`encode("TC0P")` is `('T' << 24) | ('C' << 16) | ('0' << 8) | 'P'`. -/
theorem c8_big_endian_packing (b0 b1 b2 b3 : Fin 256)
    (h0 : 0 < (b0 : Nat) ∧ (b0 : Nat) < 128) (h1 : 0 < (b1 : Nat) ∧ (b1 : Nat) < 128)
    (h2 : 0 < (b2 : Nat) ∧ (b2 : Nat) < 128) (h3 : 0 < (b3 : Nat) ∧ (b3 : Nat) < 128) :
    strtoul_b [b0, b1, b2, b3, 0] 4 16
      = some ((b0 : Nat) * 2 ^ 24 + (b1 : Nat) * 2 ^ 16 + (b2 : Nat) * 2 ^ 8 + (b3 : Nat))
    ∧ ((b0 : Nat) * 2 ^ 24 + (b1 : Nat) * 2 ^ 16 + (b2 : Nat) * 2 ^ 8 + (b3 : Nat)) >>> 24
        = (b0 : Nat)
    ∧ ((b0 : Nat) * 2 ^ 24 + (b1 : Nat) * 2 ^ 16 + (b2 : Nat) * 2 ^ 8 + (b3 : Nat)) % 2 ^ 8
        = (b3 : Nat)
    ∧ strtoul_b keyTC0P 4 16 = some (84 <<< 24 ||| 67 <<< 16 ||| 48 <<< 8 ||| 80) := by
  have hb0 := b0.isLt
  have hb1 := b1.isLt
  have hb2 := b2.isLt
  have hb3 := b3.isLt
  refine ⟨strtoul_b_four b0 b1 b2 b3 [0] 16, ?_, ?_, by decide⟩
  · rw [Nat.shiftRight_eq_div_pow]
    norm_num
    omega
  · norm_num
    omega

/-- Witness for C8 at the key `"TC0P"`. -/
theorem c8_packing_witness :
    strtoul_b [84, 67, 48, 80, 0] 4 16
      = some (((84 : Fin 256) : Nat) * 2 ^ 24 + ((67 : Fin 256) : Nat) * 2 ^ 16
          + ((48 : Fin 256) : Nat) * 2 ^ 8 + ((80 : Fin 256) : Nat))
    ∧ (((84 : Fin 256) : Nat) * 2 ^ 24 + ((67 : Fin 256) : Nat) * 2 ^ 16
          + ((48 : Fin 256) : Nat) * 2 ^ 8 + ((80 : Fin 256) : Nat)) >>> 24
        = ((84 : Fin 256) : Nat)
    ∧ (((84 : Fin 256) : Nat) * 2 ^ 24 + ((67 : Fin 256) : Nat) * 2 ^ 16
          + ((48 : Fin 256) : Nat) * 2 ^ 8 + ((80 : Fin 256) : Nat)) % 2 ^ 8
        = ((80 : Fin 256) : Nat)
    ∧ strtoul_b keyTC0P 4 16 = some (84 <<< 24 ||| 67 <<< 16 ||| 48 <<< 8 ||| 80) :=
  c8_big_endian_packing 84 67 48 80 (by decide) (by decide) (by decide) (by decide)

/-- Claim C9 (witness `c9_ui8_witness`): a `ui8 `-tagged value with any
nonzero declared size decodes to its first payload byte, a value in
`[0, 255]`, regardless of the declared size and of every trailing byte;
a payload starting with `0x2A` gives 42. -/
theorem c9_ui8_decode (val : SMCVal) (ht : val.dataType = tag_ui8)
    (hs : val.dataSize ≠ 0) :
    convertValue val = ((byteAt val 0 : Nat) : ℚ)
    ∧ 0 ≤ convertValue val ∧ convertValue val ≤ 255
    ∧ ∀ (n : Nat) (rest : List (Fin 256)), n ≠ 0 →
        convertValue (mkVal tag_ui8 n (42 :: rest)) = 42 := by
  have hmain := convertValue_ui8_eq val ht hs
  have hbound : byteAt val 0 < 256 := (val.bytes.getD 0 0).isLt
  refine ⟨hmain, ?_, ?_, ?_⟩
  · rw [hmain]; positivity
  · rw [hmain]
    have : (byteAt val 0 : Nat) ≤ 255 := by omega
    exact_mod_cast this
  · intro n rest hn
    have h42 : convertValue (mkVal tag_ui8 n (42 :: rest))
        = ((byteAt (mkVal tag_ui8 n (42 :: rest)) 0 : Nat) : ℚ) :=
      convertValue_ui8_eq _ rfl hn
    rw [h42]
    have hb : (mkVal tag_ui8 n (42 :: rest)).bytes
        = 42 :: (rest ++ List.replicate (32 - (42 :: rest).length) 0) := by
      simp [mkVal]
    have hv : byteAt (mkVal tag_ui8 n (42 :: rest)) 0 = 42 := by
      simp [byteAt, hb]
      rfl
    rw [hv]
    norm_num

/-- Witness for C9: tag `ui8 `, declared size 5, payload `[42, 7]`. -/
theorem c9_ui8_witness :
    convertValue (mkVal tag_ui8 5 [42, 7]) = ((byteAt (mkVal tag_ui8 5 [42, 7]) 0 : Nat) : ℚ)
    ∧ 0 ≤ convertValue (mkVal tag_ui8 5 [42, 7])
    ∧ convertValue (mkVal tag_ui8 5 [42, 7]) ≤ 255
    ∧ ∀ (n : Nat) (rest : List (Fin 256)), n ≠ 0 →
        convertValue (mkVal tag_ui8 n (42 :: rest)) = 42 :=
  c9_ui8_decode (mkVal tag_ui8 5 [42, 7]) rfl (by decide)

/-- Claim C10, counterexample: the claim says every key shorter than 4
characters is encoded with no out-of-range access, as if zero-padded.
But `strtoul_b(key, 4, 16)` always reads 4 bytes: on the buffer of the
two-character C string `"AB"` (3 bytes `[65, 66, 0]`) the read of byte 3
is out of the buffer's range, so the encoding is not well-defined. -/
theorem c10_short_key_oob :
    strtoul_b [65, 66, 0] 4 16 = none
    ∧ strtoul_b [65, 66, 0] 4 16 ≠ some (65 * 2 ^ 24 + 66 * 2 ^ 16) :=
  ⟨by decide, by decide⟩

/-- Claim C10 as amended (witness `c10_amended_witness`): a key of
exactly 3 ASCII characters (4-byte buffer including the terminator) is
encoded in range, with the same 32-bit value as the key zero-padded on
the right to 4 bytes; keys of 2 or fewer characters make `strtoul_b`
read out of the buffer's range. -/
theorem c10_three_char_zero_pad (b0 b1 b2 : Fin 256)
    (h0 : 0 < (b0 : Nat) ∧ (b0 : Nat) < 128) (h1 : 0 < (b1 : Nat) ∧ (b1 : Nat) < 128)
    (h2 : 0 < (b2 : Nat) ∧ (b2 : Nat) < 128) :
    strtoul_b [b0, b1, b2, 0] 4 16
      = some ((b0 : Nat) * 2 ^ 24 + (b1 : Nat) * 2 ^ 16 + (b2 : Nat) * 2 ^ 8)
    ∧ strtoul_b [b0, b1, b2, 0] 4 16 = strtoul_b [b0, b1, b2, 0, 0] 4 16
    ∧ ∀ c0 c1 : Fin 256, strtoul_b [c0, c1, 0] 4 16 = none := by
  refine ⟨?_, ?_, ?_⟩
  · have h := strtoul_b_four b0 b1 b2 0 [] 16
    simpa using h
  · rw [strtoul_b_four b0 b1 b2 0 [] 16, strtoul_b_four b0 b1 b2 0 [0] 16]
  · intro c0 c1
    simp [strtoul_b]

/-- Witness for the amended C10 at the key `"FAN"`. -/
theorem c10_amended_witness :
    strtoul_b [70, 65, 78, 0] 4 16
      = some (((70 : Fin 256) : Nat) * 2 ^ 24 + ((65 : Fin 256) : Nat) * 2 ^ 16
          + ((78 : Fin 256) : Nat) * 2 ^ 8)
    ∧ strtoul_b [70, 65, 78, 0] 4 16 = strtoul_b [70, 65, 78, 0, 0] 4 16
    ∧ ∀ c0 c1 : Fin 256, strtoul_b [c0, c1, 0] 4 16 = none :=
  c10_three_char_zero_pad 70 65 78 (by decide) (by decide) (by decide)

/-! ### Claim theorems: controller transport and facade -/

/-- Claim C4 (witness `c4_linkage_witness`): every successful
`SMCReadKey2` issues exactly two structured calls, in order, on the same
connection: first the metadata request, then the data request; the data
request reuses the encoded key of the first request, carries command
selector `SMC_CMD_READ_BYTES`, echoes in its `keyInfo.dataSize` field
exactly the declared size the metadata phase returned for that key, and
leaves every field not reused from the first request zero. -/
theorem c4_two_phase_linkage (kernel : Kernel) (conn : Nat) (key : List (Fin 256))
    (val : SMCVal) (log : List (Nat × Nat × SMCParamStruct))
    (h : SMCReadKey2 kernel conn key = some (kIOReturnSuccess, val, log)) :
    ∃ k, strtoul_b key 4 16 = some k
      ∧ log = [(conn, KERNEL_INDEX_SMC, metaRequest k),
               (conn, KERNEL_INDEX_SMC,
                dataRequest k (kernel conn KERNEL_INDEX_SMC (metaRequest k)).2.keyInfo.dataSize)]
      ∧ val.dataSize = (kernel conn KERNEL_INDEX_SMC (metaRequest k)).2.keyInfo.dataSize
      ∧ ∀ s : Nat,
          (dataRequest k s).key = (metaRequest k).key
          ∧ (dataRequest k s).data8 = SMC_CMD_READ_BYTES
          ∧ (dataRequest k s).keyInfo.dataSize = s
          ∧ (dataRequest k s).keyInfo.dataType = 0
          ∧ (dataRequest k s).keyInfo.dataAttributes = 0
          ∧ (dataRequest k s).result = 0
          ∧ (dataRequest k s).status = 0
          ∧ (dataRequest k s).data32 = 0
          ∧ (dataRequest k s).bytes = List.replicate 32 0 := by
  cases hk : strtoul_b key 4 16 with
  | none => rw [SMCReadKey2, hk] at h; simp at h
  | some k =>
    refine ⟨k, rfl, ?_⟩
    rw [SMCReadKey2, hk] at h
    simp only [SMCCall] at h
    split_ifs at h with h1 h2
    · simp only [Option.some.injEq, Prod.mk.injEq] at h
      exact absurd h.1 h1
    · simp only [Option.some.injEq, Prod.mk.injEq] at h
      exact absurd h.1 h2
    · simp only [Option.some.injEq, Prod.mk.injEq] at h
      obtain ⟨-, hval, hlog⟩ := h
      refine ⟨hlog.symm, ?_, ?_⟩
      · rw [← hval]
        exact rfl
      · intro s
        exact ⟨rfl, rfl, rfl, rfl, rfl, rfl, rfl, rfl, rfl⟩

/-- Witness for C4: `okKernel` answers both phases with status 0. -/
theorem c4_linkage_witness :
    ∃ k, strtoul_b keyTC0P 4 16 = some k
      ∧ [((1 : Nat), KERNEL_INDEX_SMC, metaRequest 1413689424),
         ((1 : Nat), KERNEL_INDEX_SMC,
          dataRequest 1413689424
            (okKernel 1 KERNEL_INDEX_SMC (metaRequest 1413689424)).2.keyInfo.dataSize)]
          = [((1 : Nat), KERNEL_INDEX_SMC, metaRequest k),
             ((1 : Nat), KERNEL_INDEX_SMC,
              dataRequest k (okKernel 1 KERNEL_INDEX_SMC (metaRequest k)).2.keyInfo.dataSize)]
      ∧ ({ valAfterMeta keyTC0P (okKernel 1 KERNEL_INDEX_SMC (metaRequest 1413689424)).2.keyInfo with
            bytes := (okKernel 1 KERNEL_INDEX_SMC (dataRequest 1413689424 2)).2.bytes } : SMCVal).dataSize
          = (okKernel 1 KERNEL_INDEX_SMC (metaRequest k)).2.keyInfo.dataSize
      ∧ ∀ s : Nat,
          (dataRequest k s).key = (metaRequest k).key
          ∧ (dataRequest k s).data8 = SMC_CMD_READ_BYTES
          ∧ (dataRequest k s).keyInfo.dataSize = s
          ∧ (dataRequest k s).keyInfo.dataType = 0
          ∧ (dataRequest k s).keyInfo.dataAttributes = 0
          ∧ (dataRequest k s).result = 0
          ∧ (dataRequest k s).status = 0
          ∧ (dataRequest k s).data32 = 0
          ∧ (dataRequest k s).bytes = List.replicate 32 0 :=
  c4_two_phase_linkage okKernel 1 keyTC0P _ _ rfl

/-- Claim C5 (witness `c5_error_witness`): a non-success status from the
metadata phase is returned by `SMCReadKey2` verbatim — whatever `Int` the
kernel produced — with no data-phase request issued and no retry (the
call log is exactly the one metadata request); likewise a non-success
data-phase status is returned verbatim after exactly the two requests,
with no retry. -/
theorem c5_error_verbatim :
    (∀ (kernel : Kernel) (conn : Nat) (key : List (Fin 256)) (k : Nat),
       strtoul_b key 4 16 = some k →
       (kernel conn KERNEL_INDEX_SMC (metaRequest k)).1 ≠ kIOReturnSuccess →
       SMCReadKey2 kernel conn key =
         some ((kernel conn KERNEL_INDEX_SMC (metaRequest k)).1, valAfterKey key,
               [(conn, KERNEL_INDEX_SMC, metaRequest k)]))
    ∧ (∀ (kernel : Kernel) (conn : Nat) (key : List (Fin 256)) (k : Nat),
       strtoul_b key 4 16 = some k →
       (kernel conn KERNEL_INDEX_SMC (metaRequest k)).1 = kIOReturnSuccess →
       (kernel conn KERNEL_INDEX_SMC
          (dataRequest k (kernel conn KERNEL_INDEX_SMC (metaRequest k)).2.keyInfo.dataSize)).1
         ≠ kIOReturnSuccess →
       SMCReadKey2 kernel conn key =
         some ((kernel conn KERNEL_INDEX_SMC
                  (dataRequest k (kernel conn KERNEL_INDEX_SMC (metaRequest k)).2.keyInfo.dataSize)).1,
               valAfterMeta key (kernel conn KERNEL_INDEX_SMC (metaRequest k)).2.keyInfo,
               [(conn, KERNEL_INDEX_SMC, metaRequest k),
                (conn, KERNEL_INDEX_SMC,
                 dataRequest k (kernel conn KERNEL_INDEX_SMC (metaRequest k)).2.keyInfo.dataSize)])) := by
  constructor
  · intro kernel conn key k hk h1
    simp only [SMCReadKey2, hk, SMCCall]
    rw [if_pos h1]
  · intro kernel conn key k hk h1 h2
    simp only [SMCReadKey2, hk, SMCCall, valAfterMeta, valAfterKey]
    rw [if_neg (not_not_intro h1)]
    rw [if_pos h2]

/-- Witness for C5: `failKernel` fails the metadata phase with status
714; `failDataKernel` fails the data phase with status -318. -/
theorem c5_error_witness :
    SMCReadKey2 failKernel 3 keyTC0P =
      some ((failKernel 3 KERNEL_INDEX_SMC (metaRequest 1413689424)).1, valAfterKey keyTC0P,
            [((3 : Nat), KERNEL_INDEX_SMC, metaRequest 1413689424)])
    ∧ SMCReadKey2 failDataKernel 3 keyTC0P =
      some ((failDataKernel 3 KERNEL_INDEX_SMC
               (dataRequest 1413689424
                 (failDataKernel 3 KERNEL_INDEX_SMC (metaRequest 1413689424)).2.keyInfo.dataSize)).1,
            valAfterMeta keyTC0P (failDataKernel 3 KERNEL_INDEX_SMC (metaRequest 1413689424)).2.keyInfo,
            [((3 : Nat), KERNEL_INDEX_SMC, metaRequest 1413689424),
             ((3 : Nat), KERNEL_INDEX_SMC,
              dataRequest 1413689424
                (failDataKernel 3 KERNEL_INDEX_SMC (metaRequest 1413689424)).2.keyInfo.dataSize)]) :=
  ⟨c5_error_verbatim.1 failKernel 3 keyTC0P 1413689424 (by decide) (by decide),
   c5_error_verbatim.2 failDataKernel 3 keyTC0P 1413689424 (by decide) (by decide) (by decide)⟩

/-- Claim C6 (witness `c6_no_partial_witness`): the facade `SMCReadKey`
writes the caller's output location only when the whole two-phase read
succeeded, and then writes exactly `convertValue` of the returned value;
on any error the location still holds its previous content and the error
status is returned. -/
theorem c6_no_partial (kernel : Kernel) (conn : Nat) (key : List (Fin 256))
    (value : ℚ) (r : Int) (v : ℚ)
    (h : SMCReadKey kernel conn key value = some (r, v)) :
    (r = kIOReturnSuccess →
       ∃ val log, SMCReadKey2 kernel conn key = some (kIOReturnSuccess, val, log)
         ∧ v = convertValue val)
    ∧ (r ≠ kIOReturnSuccess → v = value) := by
  rw [SMCReadKey] at h
  cases hres : SMCReadKey2 kernel conn key with
  | none => rw [hres] at h; simp at h
  | some out =>
    obtain ⟨r0, val, log⟩ := out
    rw [hres] at h
    simp only [Option.some.injEq, Prod.mk.injEq] at h
    obtain ⟨hr, hv⟩ := h
    subst hr
    constructor
    · intro hsucc
      rw [if_pos hsucc] at hv
      refine ⟨val, log, ?_, hv.symm⟩
      rw [← hsucc]
    · intro hfail
      rw [if_neg hfail] at hv
      exact hv.symm

/-- Witness for C6: a successful read through `okKernel` overwrites the
prior content 37 with the decoded value. -/
theorem c6_no_partial_witness :
    ((0 : Int) = kIOReturnSuccess →
       ∃ val log, SMCReadKey2 okKernel 1 keyTC0P = some (kIOReturnSuccess, val, log)
         ∧ convertValue
             { valAfterMeta keyTC0P (okKernel 1 KERNEL_INDEX_SMC (metaRequest 1413689424)).2.keyInfo with
               bytes := (okKernel 1 KERNEL_INDEX_SMC (dataRequest 1413689424 2)).2.bytes }
           = convertValue val)
    ∧ ((0 : Int) ≠ kIOReturnSuccess →
       convertValue
           { valAfterMeta keyTC0P (okKernel 1 KERNEL_INDEX_SMC (metaRequest 1413689424)).2.keyInfo with
             bytes := (okKernel 1 KERNEL_INDEX_SMC (dataRequest 1413689424 2)).2.bytes }
         = 37) :=
  c6_no_partial okKernel 1 keyTC0P 37 0
    (convertValue
      { valAfterMeta keyTC0P (okKernel 1 KERNEL_INDEX_SMC (metaRequest 1413689424)).2.keyInfo with
        bytes := (okKernel 1 KERNEL_INDEX_SMC (dataRequest 1413689424 2)).2.bytes })
    rfl

end SMCBridge
